import Mathlib

/-! Formal verification of the ICMP diagnostic engine of
obeyyyy/NetworkApplication (src/NetworkApplications.py): a shallow embedding
of the checksum routine, the ping (EchoProber), traceroute (HopDiscoverer)
and paris-traceroute (MultipathProber) session loops and the summary
reporter, with theorems checking the specification's claims against it.

Conventions of the embedding: bytes and packet fields are naturals;
wall-clock readings are rationals supplied as inputs at the points the code
calls time.time(); the network is an oracle giving each probe's outcome;
Python's arbitrary-precision integer operators are rendered over naturals
(with explicit masks where the code masks) and over integers where a value
can be negative. An exception the code does not catch is modelled as an
aborted result carrying nothing, since the program then dies having
reported nothing. -/

/-! Embedding of NetworkApplication.checksum (src/NetworkApplications.py lines 69-92). -/

/-- The while loop of lines 74-82: sum the 16-bit words `data[count+1]*256 + data[count]`
over consecutive byte pairs, masking the accumulator to 32 bits after every addition
(line 77), and add an odd trailing byte as a standalone value (lines 80-82). -/
def csumWords : ℕ → List ℕ → ℕ
  | csum, b0 :: b1 :: rest => csumWords ((csum + (b1 * 256 + b0)) &&& 0xffffffff) rest
  | csum, [b] => (csum + b) &&& 0xffffffff
  | csum, [] => csum

/-- `socket.htons` on a little-endian host: swap the two bytes of a 16-bit value.
The deployment platform of the program is a little-endian (x86) host; on a
big-endian host `htons` would be the identity instead. -/
def htons (x : ℕ) : ℕ :=
  ((x &&& 0xff) <<< 8) ||| ((x >>> 8) &&& 0xff)

/-- `NetworkApplication.checksum` (lines 69-92), with Python's `~csum & 0xffff`
on an unbounded integer rendered as `((-csum - 1) % 65536).toNat`. -/
def checksum (dataToChecksum : List ℕ) : ℕ :=
  let csum := csumWords 0 dataToChecksum
  let csum1 := (csum >>> 16) + (csum &&& 0xffff)
  let csum2 := csum1 + (csum1 >>> 16)
  let answer := ((-(csum2 : ℤ) - 1) % 65536).toNat
  let answer2 := (answer >>> 8) ||| ((answer <<< 8) &&& 0xff00)
  htons answer2

/-- Unmasked little-endian word sum: what the while loop computes when no 32-bit
overflow occurs. Proof-side characterization of `csumWords`. -/
def leWordSum : List ℕ → ℕ
  | b0 :: b1 :: rest => (b1 * 256 + b0) + leWordSum rest
  | [b] => b
  | [] => 0

/-- Modelled from the spec: the sum of all 16-bit big-endian words of the input,
with an odd trailing byte added as a standalone zero-high-padded value
(the final byte contributes its own value, high byte zero) - the literal
reading of the claim's padding rule. -/
def beWordSumHighPad : List ℕ → ℕ
  | b0 :: b1 :: rest => (b0 * 256 + b1) + beWordSumHighPad rest
  | [b] => b
  | [] => 0

/-- Modelled from the spec, amended: the sum of all 16-bit big-endian words, with
an odd trailing byte padded with a zero low byte (the standard RFC 1071 padding:
the final byte is the high byte of the last word). -/
def beWordSumLowPad : List ℕ → ℕ
  | b0 :: b1 :: rest => (b0 * 256 + b1) + beWordSumLowPad rest
  | [b] => b * 256
  | [] => 0

/-- One end-around-carry folding step: add the bits above 16 back into the low 16. -/
def rfcFoldAux : ℕ → ℕ → ℕ
  | 0, v => v
  | fuel + 1, v => if v < 65536 then v else rfcFoldAux fuel (v / 65536 + v % 65536)

/-- Fold carries from bits 16+ back into the low 16 bits repeatedly until no
carry remains (fuel `v` always suffices). -/
def rfcFold (v : ℕ) : ℕ := rfcFoldAux v v

/-- Swap the two bytes of a 16-bit value, arithmetically. -/
def byteSwap16 (x : ℕ) : ℕ := 256 * (x % 256) + x / 256

/-- The claim's description of the RFC 1071 value, read literally: big-endian
word sum with a zero-high-padded trailing byte, folded, one's-complemented,
byte-swapped to wire order. -/
def rfc1071Claimed (data : List ℕ) : ℕ :=
  byteSwap16 (65535 - rfcFold (beWordSumHighPad data))

/-- The RFC 1071 value with the standard trailing padding (zero low byte). -/
def rfc1071LowPad (data : List ℕ) : ℕ :=
  byteSwap16 (65535 - rfcFold (beWordSumLowPad data))

/-- Canonical one's-complement residue in `[0, 65535]`: the value every
end-around-carry fold converges to. -/
def foldc (v : ℕ) : ℕ := if v = 0 then 0 else 1 + (v - 1) % 65535

/-! ## ICMP packet framing (struct.pack/unpack with format "BBHHH") -/

/-- Bytes of Python `struct.pack("BBHHH", t, c, ck, i, s)` on a little-endian
host: two single bytes followed by three 16-bit little-endian fields.
Callers always pass in-range values (`struct.pack` raises otherwise). -/
def packBBHHH (t c ck i s : ℕ) : List ℕ :=
  [t, c, ck % 256, ck / 256, i % 256, i / 256, s % 256, s / 256]

/-- An ICMP header as carried by the probes: type, code, checksum, identifier,
sequence. -/
structure IcmpHeader where
  type : ℕ
  code : ℕ
  checksum : ℕ
  id : ℕ
  seq : ℕ
deriving DecidableEq, Repr

/-- Python `struct.unpack("BBHHH", bytes)`: requires exactly 8 bytes
(`struct.error` otherwise, modelled as `none`). -/
def unpackBBHHH : List ℕ → Option IcmpHeader
  | [b0, b1, b2, b3, b4, b5, b6, b7] =>
    some { type := b0, code := b1, checksum := b2 + 256 * b3, id := b4 + 256 * b5, seq := b6 + 256 * b7 }
  | _ => none

/-! ## EchoProber: ICMPPing (lines 121-198)

Wall-clock timestamps are inputs of the model: `t0`/`t1` are the clock readings
of lines 156/159 around the send, `t2`/`t3` those of lines 127/131 around the
receive. The datagram delivered by `recvfrom` (or `none` when the deadline
elapses and `socket.timeout` is raised) is likewise an input. -/

/-- `ICMPPing.sendOnePing` (lines 144-168): builds the Echo-Request header with
zero checksum (line 150), checksums it (line 153), re-packs it (line 155), and
returns `elapsedTime = endTime - startTime`, the duration of the `sendto` call
itself (lines 156-166). -/
def sendOnePing (ID : ℕ) (startTime endTime : ℚ) : IcmpHeader × ℚ :=
  let icmp_header := packBBHHH 8 0 0 ID 1
  let icmp_checksum := checksum icmp_header
  ({ type := 8, code := 0, checksum := icmp_checksum, id := ID, seq := 1 }, endTime - startTime)

/-- `ICMPPing.receiveOnePing` (lines 124-142): on a received datagram, parses
bytes 20-27 as the ICMP header (lines 136-137) and returns
`time_received = end_time - start_time` (lines 131-132, 141). The parsed
identifier is never compared with `ID` (the step-5 comment has no code).
`none` models the uncaught `socket.timeout` of `recvfrom` (or an uncaught
`struct.error` on a short datagram). -/
def receiveOnePing (ID : ℕ) (received : Option (List ℕ)) (start_time end_time : ℚ) : Option ℚ :=
  match received with
  | none => none
  | some data =>
    match unpackBBHHH ((data.drop 20).take 8) with
    | none => none
    | some _hdr => some (end_time - start_time)

/-- Result of one `doOnePing` iteration: whether `close()` (line 180) executed,
which delay (line 182) was printed, and whether an uncaught exception escaped. -/
structure DoOnePingResult where
  socketClosed : Bool
  reported : Option ℚ
  aborted : Bool
deriving DecidableEq, Repr

/-- `ICMPPing.doOnePing` (lines 170-183): opens a raw socket, sends with ID 1,
receives, closes, prints `(recv - sent) * 1000`. There is no try/finally: if
`receiveOnePing` raises, lines 180-182 never run and the exception propagates. -/
def doOnePing (received : Option (List ℕ)) (t0 t1 t2 t3 : ℚ) : DoOnePingResult :=
  let sent := (sendOnePing 1 t0 t1).2
  match receiveOnePing 1 received t2 t3 with
  | none => { socketClosed := false, reported := none, aborted := true }
  | some recv => { socketClosed := true, reported := some ((recv - sent) * 1000), aborted := false }

/-- Observable trace of an `ICMPPing.__init__` session (lines 185-197):
how many probes were issued, the printed delays, and whether the session
died on an uncaught exception. -/
structure PingTrace where
  probesSent : ℕ
  reports : List ℚ
  crashed : Bool
deriving DecidableEq, Repr

/-- The `while not stop` loop of lines 191-194 (`stop` is never set, so only
fuel exhaustion or an uncaught exception ends the model). `replies i` and
`times i` are the datagram and clock readings of iteration `i`. -/
def pingLoop (replies : ℕ → Option (List ℕ)) (times : ℕ → ℚ × ℚ × ℚ × ℚ) :
    ℕ → ℕ → PingTrace → PingTrace
  | 0, _, acc => acc
  | fuel + 1, i, acc =>
    let (t0, t1, t2, t3) := times i
    let r := doOnePing (replies i) t0 t1 t2 t3
    let acc' : PingTrace :=
      { probesSent := acc.probesSent + 1,
        reports := acc.reports ++ (match r.reported with | some v => [v] | none => []),
        crashed := r.aborted }
    if r.aborted then acc' else pingLoop replies times fuel (i + 1) acc'

/-- A full ping session starting at iteration 0 with nothing sent. -/
def pingSession (replies : ℕ → Option (List ℕ)) (times : ℕ → ℚ × ℚ × ℚ × ℚ)
    (fuel : ℕ) : PingTrace :=
  pingLoop replies times fuel 0 { probesSent := 0, reports := [], crashed := false }

/-- A well-formed Echo-Reply datagram: 20 bytes of IP header, then an ICMP
header with type 0, identifier 1, sequence 1. -/
def validReply : List ℕ := List.replicate 20 0 ++ [0, 0, 0, 0, 1, 0, 1, 0]

/-- A reply datagram whose identifier field is 999, not the request's ID 1. -/
def mismatchedReply : List ℕ := List.replicate 20 0 ++ [0, 0, 0, 0, 231, 3, 1, 0]

/-! ## HopDiscoverer: Traceroute (lines 202-245) and
MultipathProber: ParisTraceroute (lines 252-317)

The network is an oracle `o ttl i` giving the outcome of probe `i` (0, 1, 2)
of the hop at `ttl`: either a datagram whose ICMP type is `icmpType`, or no
datagram before the deadline. A timeout raises `socket.timeout` out of
`recvfrom`, which neither loop catches, aborting the session (in plain
Traceroute the first hop has no timeout set, so the call blocks forever
instead; either way no further hop is emitted and nothing more is reported,
which is all the model distinguishes). Reverse DNS only selects which of two
`printMultipleResults` calls runs - both emit the same hop - so it is not
modelled. RTT values influence nothing the claims mention. -/

/-- Outcome of a single probe at the receiving socket. -/
inductive ProbeOutcome where
  | timeout : ProbeOutcome
  | reply (icmpType : ℕ) : ProbeOutcome
deriving DecidableEq, Repr

/-- `Traceroute`'s probe packet (lines 216-219): `struct.pack("BBHHH", 8, 0|checksum, checksum|0, ttl, 1)`
- the identifier field carries the current ttl, the sequence is the constant 1. -/
def tracerouteSendData (ttl : ℕ) : IcmpHeader :=
  let send_data := packBBHHH 8 0 0 ttl 1
  let chk := checksum send_data
  { type := 8, code := 0, checksum := chk, id := ttl, seq := 1 }

/-- Result of the Traceroute scanning loop: `finished hops` when a hop's final
reply had type 0 (line 240's break), `aborted hops` when a probe timed out or
blocked, `running hops` when the fuel ran out with the loop still going. In
every case `hops` lists the ttl values emitted via `printMultipleResults`. -/
inductive TrResult where
  | finished (hops : List ℕ)
  | aborted (hops : List ℕ)
  | running (hops : List ℕ)
deriving DecidableEq, Repr

/-- The `while True` loop of lines 211-243: three probes at the current ttl
(line 221's `for i in range(3)`), one hop emitted per completed iteration,
`break` only when the type parsed from the last probe's `recv_data`
(line 230) is 0 (line 240); otherwise `ttl += 1` and loop - with no upper
bound on ttl. -/
def trLoop (o : ℕ → ℕ → ProbeOutcome) : ℕ → ℕ → List ℕ → TrResult
  | 0, _, hops => .running hops
  | fuel + 1, ttl, hops =>
    match o ttl 0, o ttl 1, o ttl 2 with
    | .timeout, _, _ => .aborted hops
    | _, .timeout, _ => .aborted hops
    | _, _, .timeout => .aborted hops
    | _, _, .reply t =>
      if t = 0 then .finished (hops ++ [ttl]) else trLoop o fuel (ttl + 1) (hops ++ [ttl])

/-- A full Traceroute session: ttl starts at 1 (line 208), no hops emitted yet. -/
def traceroute (o : ℕ → ℕ → ProbeOutcome) (fuel : ℕ) : TrResult :=
  trLoop o fuel 1 []

/-- `ParisTraceroute`'s probe packet (lines 272-274): identical construction -
the identifier field again carries the current ttl, the sequence is 1. -/
def parisSendData (ttl : ℕ) : IcmpHeader :=
  let send_data := packBBHHH 8 0 0 ttl 1
  let chk := checksum send_data
  { type := 8, code := 0, checksum := chk, id := ttl, seq := 1 }

/-- State of a ParisTraceroute session: the current ttl, the `packet_loss`
variable (line 287), session-wide totals of probes sent and replies received
(instrumentation the claims quantify over; the code's own `packetSent` /
`packetRecvd` reset at every hop, lines 268-269), the hops emitted, and the
(identifier, sequence) pair of every probe sent. -/
structure ParisState where
  ttl : ℕ
  packetLoss : ℚ
  totalSent : ℕ
  totalRecvd : ℕ
  hops : List ℕ
  sigs : List (ℕ × ℕ)
deriving DecidableEq, Repr

/-- Result of the ParisTraceroute loop; `aborted` carries no state because an
aborted session reports nothing. -/
inductive ParisResult where
  | finished (st : ParisState)
  | aborted
  | running (st : ParisState)
deriving DecidableEq, Repr

/-- One probe of the `for i in range(3)` loop (lines 276-287), threading
`(packetSent, packetRecvd, packet_loss, last parsed icmp type)`: `sendto`
then `packetSent += 1` (279), receive or raise (281), `packetRecvd += 1`
(283), and `packet_loss = (packetSent - packetRecvd) / packetSent * 100`
(287). -/
def probeStep (o : ℕ → ℕ → ProbeOutcome) (ttl i : ℕ) :
    ℕ × ℕ × ℚ × Option ℕ → Option (ℕ × ℕ × ℚ × Option ℕ)
  | (packetSent, packetRecvd, _packetLoss, _lastType) =>
    let sent := packetSent + 1
    match o ttl i with
    | .timeout => none
    | .reply t =>
      let recvd := packetRecvd + 1
      some (sent, recvd, ((sent : ℚ) - (recvd : ℚ)) / (sent : ℚ) * 100, some t)

/-- The three probes of one hop, starting from the reset counters of
lines 268-269 and the current `packet_loss`. -/
def parisFor (o : ℕ → ℕ → ProbeOutcome) (ttl : ℕ) (packetLoss : ℚ) :
    Option (ℕ × ℕ × ℚ × Option ℕ) :=
  ((probeStep o ttl 0 (0, 0, packetLoss, none)).bind (probeStep o ttl 1)).bind (probeStep o ttl 2)

/-- The session state after a hop's three probes complete: `packet_loss`
overwritten (line 287), totals advanced, the hop emitted
(`printMultipleResults`, lines 298/305), and the (identifier, sequence) pair
of the thrice-sent `send_data` recorded. -/
def parisNext (st : ParisState) (sent3 recvd3 : ℕ) (pl : ℚ) : ParisState :=
  { ttl := st.ttl, packetLoss := pl,
    totalSent := st.totalSent + sent3, totalRecvd := st.totalRecvd + recvd3,
    hops := st.hops ++ [st.ttl],
    sigs := st.sigs ++ [((parisSendData st.ttl).id, (parisSendData st.ttl).seq),
      ((parisSendData st.ttl).id, (parisSendData st.ttl).seq),
      ((parisSendData st.ttl).id, (parisSendData st.ttl).seq)] }

/-- The `while True` loop of lines 262-312: per iteration the three probes,
one emitted hop, `break` when the last parsed icmp type is 0 (line 309),
otherwise `ttl += 1` - again with no upper bound on ttl. On `break` the
session reports `packet_loss` via `printAdditionalDetails` (line 315). -/
def parisLoop (o : ℕ → ℕ → ProbeOutcome) : ℕ → ParisState → ParisResult
  | 0, st => .running st
  | fuel + 1, st =>
    match parisFor o st.ttl st.packetLoss with
    | none => .aborted
    | some (sent3, recvd3, pl, lastType) =>
      if lastType = some 0 then .finished (parisNext st sent3 recvd3 pl)
      else parisLoop o fuel { parisNext st sent3 recvd3 pl with ttl := st.ttl + 1 }

/-- Initial session state: ttl 1 (line 258), `packet_loss = 0` (line 260). -/
def parisInit : ParisState :=
  { ttl := 1, packetLoss := 0, totalSent := 0, totalRecvd := 0, hops := [], sigs := [] }

/-- A full ParisTraceroute session. -/
def parisTraceroute (o : ℕ → ℕ → ProbeOutcome) (fuel : ℕ) : ParisResult :=
  parisLoop o fuel parisInit

/-- The hops emitted so far, whatever state the session ended in. -/
def ParisResult.hopsOf : ParisResult → List ℕ
  | .finished st => st.hops
  | .running st => st.hops
  | .aborted => []

/-- Whether the session is still scanning when the fuel runs out. -/
def ParisResult.isStillRunning : ParisResult → Bool
  | .running _ => true
  | _ => false

/-- Whether the session finished normally (a type-0 reply broke the loop and
line 315 reported the summary). -/
def ParisResult.isDone : ParisResult → Bool
  | .finished _ => true
  | _ => false

/-- The (identifier, sequence) pairs of every probe sent so far. -/
def ParisResult.sigsOf : ParisResult → List (ℕ × ℕ)
  | .finished st => st.sigs
  | .running st => st.sigs
  | .aborted => []

/-- The `packet_loss` value a finished session reports at line 315. -/
def ParisResult.lossOf : ParisResult → ℚ
  | .finished st => st.packetLoss
  | .running st => st.packetLoss
  | .aborted => 0

/-- Total probes sent over the whole session. -/
def ParisResult.sentOf : ParisResult → ℕ
  | .finished st => st.totalSent
  | .running st => st.totalSent
  | .aborted => 0

/-- Total replies received over the whole session. -/
def ParisResult.recvdOf : ParisResult → ℕ
  | .finished st => st.totalRecvd
  | .running st => st.totalRecvd
  | .aborted => 0

/-! ## ResultReporter: printAdditionalDetails (lines 100-103) -/

/-- A line printed by the summary reporter. -/
inductive OutLine where
  | loss (packetLoss : ℚ)
  | rtt (minimumDelay averageDelay maximumDelay : ℚ)
deriving DecidableEq, Repr

/-- `NetworkApplication.printAdditionalDetails` (lines 100-103): always prints
the packet-loss line; prints the rtt min/avg/max line only when all three
delays are strictly positive. -/
def printAdditionalDetails (packetLoss minimumDelay averageDelay maximumDelay : ℚ) : List OutLine :=
  [OutLine.loss packetLoss] ++
    (if minimumDelay > 0 ∧ averageDelay > 0 ∧ maximumDelay > 0 then
      [OutLine.rtt minimumDelay averageDelay maximumDelay]
    else [])

/-! ## Concrete oracles and states used by witnesses and counterexamples -/

/-- Every probe is answered with a time-exceeded (type 11) reply. -/
def oAll11 : ℕ → ℕ → ProbeOutcome := fun _ _ => ProbeOutcome.reply 11

/-- Every probe is answered by the destination (type 0). -/
def oAllZero : ℕ → ℕ → ProbeOutcome := fun _ _ => ProbeOutcome.reply 0

/-- Hops 1 and 2 send time-exceeded replies, hop 3 is the destination. -/
def oThreeHops : ℕ → ℕ → ProbeOutcome :=
  fun ttl _ => if ttl = 3 then ProbeOutcome.reply 0 else ProbeOutcome.reply 11

/-- At ttl 1 the first probe is answered with type 0 but the last with
type 11; from ttl 2 on every probe is answered with type 0. -/
def oEarlyZero : ℕ → ℕ → ProbeOutcome :=
  fun ttl i =>
    if ttl = 1 then (if i = 0 then ProbeOutcome.reply 0 else ProbeOutcome.reply 11)
    else ProbeOutcome.reply 0

/-- Hop 1 sends time-exceeded replies, hop 2 is the destination. -/
def oTwoHops : ℕ → ℕ → ProbeOutcome :=
  fun ttl _ => if ttl = 2 then ProbeOutcome.reply 0 else ProbeOutcome.reply 11

/-- The first ping probe times out; every later probe would be answered. -/
def repliesFirstLost : ℕ → Option (List ℕ) :=
  fun i => if i = 0 then none else some validReply


theorem foldc_le (v : ℕ) : foldc v ≤ 65535 := by
  unfold foldc; split <;> omega

theorem foldc_mod (v : ℕ) : foldc v % 65535 = v % 65535 := by
  unfold foldc; split <;> omega

theorem foldc_eq_zero (v : ℕ) : foldc v = 0 ↔ v = 0 := by
  unfold foldc; split <;> omega

theorem foldc_of_le (v : ℕ) (h : v ≤ 65535) : foldc v = v := by
  unfold foldc; split <;> omega

theorem foldc_congr (v w : ℕ) (h : v % 65535 = w % 65535) (h0 : v = 0 ↔ w = 0) :
    foldc v = foldc w := by
  unfold foldc; split <;> split <;> omega

theorem rfcFoldAux_eq (fuel : ℕ) : ∀ v : ℕ, v ≤ fuel + 65535 → rfcFoldAux fuel v = foldc v := by
  induction fuel with
  | zero =>
    intro v hv
    rw [rfcFoldAux, foldc_of_le v (by omega)]
  | succ n ih =>
    intro v hv
    rw [rfcFoldAux]
    split
    · rw [foldc_of_le v (by omega)]
    · rename_i hge
      have h1 : 1 ≤ v / 65536 := by omega
      have h2 : v / 65536 + v % 65536 ≤ n + 65535 := by omega
      rw [ih _ h2]
      apply foldc_congr <;> omega

theorem rfcFold_eq (v : ℕ) : rfcFold v = foldc v :=
  rfcFoldAux_eq v v (by omega)

theorem land_ffff (x : ℕ) : x &&& 0xffff = x % 65536 := by
  have h : (0xffff : ℕ) = 2 ^ 16 - 1 := by norm_num
  rw [h, Nat.and_pow_two_sub_one_eq_mod]

theorem land_ffffffff (x : ℕ) : x &&& 0xffffffff = x % 4294967296 := by
  have h : (0xffffffff : ℕ) = 2 ^ 32 - 1 := by norm_num
  rw [h, Nat.and_pow_two_sub_one_eq_mod]

theorem land_ff (x : ℕ) : x &&& 0xff = x % 256 := by
  have h : (0xff : ℕ) = 2 ^ 8 - 1 := by norm_num
  rw [h, Nat.and_pow_two_sub_one_eq_mod]

theorem shiftRight8 (x : ℕ) : x >>> 8 = x / 256 := by
  rw [Nat.shiftRight_eq_div_pow]

theorem shiftRight16 (x : ℕ) : x >>> 16 = x / 65536 := by
  rw [Nat.shiftRight_eq_div_pow]

theorem land_ff00 (a : ℕ) : (a <<< 8) &&& 0xff00 = (a % 256) <<< 8 := by
  have h : (0xff00 : ℕ) = (2 ^ 8 - 1) <<< 8 := by decide
  rw [h]
  apply Nat.eq_of_testBit_eq
  intro j
  have h256 : (256 : ℕ) = 2 ^ 8 := by norm_num
  rw [Nat.testBit_land, Nat.testBit_shiftLeft, Nat.testBit_shiftLeft, Nat.testBit_shiftLeft,
    Nat.testBit_two_pow_sub_one, h256, Nat.testBit_mod_two_pow]
  by_cases h8 : j ≥ 8 <;> by_cases h16 : j - 8 < 8 <;>
    cases hb : a.testBit (j - 8) <;> simp [h8, h16, hb]

theorem or_small (x y : ℕ) (h : x < 256) : x ||| (256 * y) = 256 * y + x := by
  apply Nat.eq_of_testBit_eq
  intro j
  have h256 : (256 : ℕ) * y = 2 ^ 8 * y := by norm_num
  rw [Nat.testBit_lor, h256, Nat.testBit_mul_pow_two_add y (show x < 2 ^ 8 by omega) j]
  have hs : (2 ^ 8 * y).testBit j = (decide (j ≥ 8) && y.testBit (j - 8)) := by
    rw [show (2 : ℕ) ^ 8 * y = y <<< 8 by rw [Nat.shiftLeft_eq]; ring, Nat.testBit_shiftLeft]
  rw [hs]
  by_cases h8 : j < 8
  · simp [h8, Nat.not_le.mpr h8]
  · have hx : x.testBit j = false := by
      apply Nat.testBit_eq_false_of_lt
      calc x < 256 := h
        _ = 2 ^ 8 := by norm_num
        _ ≤ 2 ^ j := Nat.pow_le_pow_right (by norm_num) (by omega)
    simp [h8, hx, Nat.le_of_not_lt h8]

/-- The byte-swap expression of line 88, on a 16-bit input, is `byteSwap16`. -/
theorem swapExpr_eq (a : ℕ) (h : a < 65536) :
    (a >>> 8) ||| ((a <<< 8) &&& 0xff00) = byteSwap16 a := by
  rw [land_ff00, shiftRight8, Nat.shiftLeft_eq, show (2:ℕ)^8 = 256 by norm_num]
  rw [show (a % 256) * 256 = 256 * (a % 256) by ring]
  rw [or_small (a / 256) (a % 256) (by omega)]
  unfold byteSwap16
  omega

/-- `htons` on a 16-bit input is the byte swap. -/
theorem htons_eq (a : ℕ) (h : a < 65536) : htons a = byteSwap16 a := by
  unfold htons
  rw [land_ff, shiftRight8, land_ff, Nat.shiftLeft_eq, show (2:ℕ)^8 = 256 by norm_num]
  have h1 : a / 256 % 256 = a / 256 := Nat.mod_eq_of_lt (by omega)
  rw [h1, show (a % 256) * 256 = 256 * (a % 256) by ring]
  rw [Nat.lor_comm, or_small (a / 256) (a % 256) (by omega)]
  unfold byteSwap16
  omega

/-- The 32-bit mask applied after every addition is plain reduction mod `2^32`
of the running sum. -/
theorem csumWords_eq : ∀ (l : List ℕ) (c : ℕ), csumWords c l = (c + leWordSum l) % 4294967296 ∨ (l = [] ∧ csumWords c l = c)
  | [], c => Or.inr ⟨rfl, rfl⟩
  | [b], c => by
    left
    rw [csumWords, leWordSum, land_ffffffff]
  | b0 :: b1 :: rest, c => by
    left
    rw [csumWords, leWordSum, land_ffffffff]
    rcases csumWords_eq rest ((c + (b1 * 256 + b0)) % 4294967296) with h | ⟨hrest, h⟩
    · rw [h, Nat.mod_add_mod]
      ring_nf
    · subst hrest
      rw [h, leWordSum]
      ring_nf

theorem csumWords_zero (l : List ℕ) : csumWords 0 l = leWordSum l % 4294967296 := by
  rcases csumWords_eq l 0 with h | ⟨hl, h⟩
  · rw [h, Nat.zero_add]
  · subst hl
    rw [h, leWordSum]

theorem leWordSum_le : ∀ l : List ℕ, (∀ b ∈ l, b < 256) → leWordSum l ≤ 65535 * l.length
  | [], _ => by rw [leWordSum]; simp
  | [b], h => by
    have hb := h b (by simp)
    rw [leWordSum]
    simp only [List.length_singleton]
    omega
  | b0 :: b1 :: rest, h => by
    have h0 := h b0 (by simp)
    have h1 := h b1 (by simp)
    have ih := leWordSum_le rest (fun b hb => h b (by simp [hb]))
    rw [leWordSum]
    simp only [List.length_cons]
    omega

/-- Python's `~csum & 0xffff` on a natural number. -/
theorem pyComplement (n : ℕ) : ((-(n : ℤ) - 1) % 65536).toNat = 65535 - n % 65536 := by
  omega

/-- Residue uniqueness: a value in `[1, 65535]` congruent to a positive `y`
mod 65535 is the canonical end-around-carry residue of `y`. -/
theorem resid (x y : ℕ) (hx : 1 ≤ x) (hx2 : x ≤ 65535) (hy : 1 ≤ y)
    (hmod : x % 65535 = y % 65535) : x = 1 + (y - 1) % 65535 := by
  omega

/-- The two folding steps of lines 84-85 followed by the 16-bit truncation of
line 87 compute the canonical end-around-carry residue. -/
theorem twoFold_eq (v : ℕ) (hv : v < 4294967296) :
    ((v >>> 16) + (v &&& 0xffff) + (((v >>> 16) + (v &&& 0xffff)) >>> 16)) % 65536 = foldc v := by
  rw [shiftRight16, land_ffff, shiftRight16]
  rcases Nat.eq_zero_or_pos v with h0 | h0
  · subst h0
    decide
  · have hne : v ≠ 0 := by omega
    rw [foldc, if_neg hne]
    have hq : v / 65536 ≤ 65535 := by omega
    have hv65535 : v % 65535 = (v / 65536 + v % 65536) % 65535 := by omega
    by_cases hf : v / 65536 + v % 65536 < 65536
    · have hd : (v / 65536 + v % 65536) / 65536 = 0 := by omega
      rw [hd]
      exact resid _ v (by omega) (by omega) h0 (by omega)
    · have hd : (v / 65536 + v % 65536) / 65536 = 1 := by omega
      have hub : v / 65536 + v % 65536 ≤ 131070 := by omega
      have hx : (v / 65536 + v % 65536 + 1) % 65536 = v / 65536 + v % 65536 - 65535 := by omega
      rw [hd, hx]
      exact resid _ v (by omega) (by omega) h0 (by omega)

theorem byteSwap16_lt (x : ℕ) (h : x < 65536) : byteSwap16 x < 65536 := by
  unfold byteSwap16
  omega

theorem byteSwap16_complement (x : ℕ) (h : x ≤ 65535) :
    byteSwap16 (65535 - x) = 65535 - byteSwap16 x := by
  unfold byteSwap16
  omega

theorem byteSwap16_byteSwap16 (x : ℕ) (h : x < 65536) : byteSwap16 (byteSwap16 x) = x := by
  unfold byteSwap16
  omega

theorem byteSwap16_mod (x : ℕ) : byteSwap16 x % 65535 = 256 * x % 65535 := by
  unfold byteSwap16
  omega

theorem byteSwap16_eq_zero (x : ℕ) : byteSwap16 x = 0 ↔ x = 0 := by
  unfold byteSwap16
  omega

/-- The little-endian word sum is congruent, mod 65535, to 256 times the
big-endian word sum with zero-low-byte trailing padding. -/
theorem leWordSum_mod : ∀ l : List ℕ, 256 * beWordSumLowPad l % 65535 = leWordSum l % 65535
  | [] => by rw [leWordSum, beWordSumLowPad]
  | [b] => by
    rw [leWordSum, beWordSumLowPad]
    omega
  | b0 :: b1 :: rest => by
    have ih := leWordSum_mod rest
    rw [leWordSum, beWordSumLowPad]
    omega

theorem leWordSum_eq_zero : ∀ l : List ℕ, leWordSum l = 0 ↔ beWordSumLowPad l = 0
  | [] => by rw [leWordSum, beWordSumLowPad]
  | [b] => by
    rw [leWordSum, beWordSumLowPad]
    omega
  | b0 :: b1 :: rest => by
    have ih := leWordSum_eq_zero rest
    rw [leWordSum, beWordSumLowPad]
    omega

theorem uniq16 (a b : ℕ) (ha : a ≤ 65535) (hb : b ≤ 65535)
    (hmod : a % 65535 = b % 65535) (hz : a = 0 ↔ b = 0) : a = b := by
  omega

/-- Characterization of the program's checksum on byte lists short enough that
the 32-bit accumulator never wraps. -/
theorem checksum_char (l : List ℕ) (hb : ∀ b ∈ l, b < 256) (hlen : l.length ≤ 1024) :
    checksum l = 65535 - foldc (leWordSum l) := by
  have hsum : leWordSum l < 4294967296 := by
    have := leWordSum_le l hb
    have : 65535 * l.length ≤ 65535 * 1024 := Nat.mul_le_mul_left _ hlen
    omega
  simp only [checksum]
  rw [csumWords_zero, Nat.mod_eq_of_lt hsum]
  rw [pyComplement, twoFold_eq _ hsum]
  have hfle := foldc_le (leWordSum l)
  have hans : 65535 - foldc (leWordSum l) < 65536 := by omega
  rw [swapExpr_eq _ hans, htons_eq _ (byteSwap16_lt _ hans), byteSwap16_byteSwap16 _ hans]

/-- The checksum equals the byte-swapped complement of the folded big-endian
sum with standard RFC 1071 trailing padding. -/
theorem checksum_eq_lowpad (l : List ℕ) (hb : ∀ b ∈ l, b < 256) (hlen : l.length ≤ 1024) :
    checksum l = rfc1071LowPad l := by
  rw [checksum_char l hb hlen]
  unfold rfc1071LowPad
  rw [rfcFold_eq, byteSwap16_complement _ (foldc_le _)]
  congr 1
  have hbs : byteSwap16 (foldc (beWordSumLowPad l)) ≤ 65535 := by
    have h := byteSwap16_lt (foldc (beWordSumLowPad l)) (by have := foldc_le (beWordSumLowPad l); omega)
    omega
  apply uniq16 _ _ (foldc_le _) hbs
  · rw [foldc_mod, byteSwap16_mod]
    have h0 : Nat.ModEq 65535 (foldc (beWordSumLowPad l)) (beWordSumLowPad l) := foldc_mod _
    have h1 : 256 * foldc (beWordSumLowPad l) % 65535 = 256 * beWordSumLowPad l % 65535 :=
      Nat.ModEq.mul_left 256 h0
    rw [h1, leWordSum_mod]
  · rw [foldc_eq_zero, byteSwap16_eq_zero, foldc_eq_zero, leWordSum_eq_zero]

theorem checksum_lt (l : List ℕ) (hb : ∀ b ∈ l, b < 256) (hlen : l.length ≤ 1024) :
    checksum l < 65536 := by
  rw [checksum_char l hb hlen]
  omega

/-- Claim C8 (counterexample): the claim's literal padding rule - odd trailing
byte added zero-high-padded into a big-endian word sum - disagrees with the
program on the one-byte input `[1]`: the code adds the trailing byte as the
low byte of a little-endian word, which corresponds to zero-LOW-padding in
the big-endian view. -/
theorem checksum_highpad_cex :
    checksum [1] = 65534 ∧ rfc1071Claimed [1] = 65279 ∧ checksum [1] ≠ rfc1071Claimed [1] := by
  decide

/-- Claim C8 (amended): for byte lists short enough that the 32-bit accumulator
never wraps (replies are read from a 1024-byte buffer), `checksum` returns the
RFC 1071 value - big-endian word sum with the odd trailing byte padded by a
zero LOW byte, carries folded until none remain, one's-complemented,
byte-swapped to wire order - and the result is a 16-bit value. -/
theorem checksum_eq_rfc1071 (l : List ℕ) (hb : ∀ b ∈ l, b < 256) (hlen : l.length ≤ 1024) :
    checksum l = rfc1071LowPad l ∧ checksum l < 65536 :=
  ⟨checksum_eq_lowpad l hb hlen, checksum_lt l hb hlen⟩

/-- Witness for C8: the amended theorem evaluated at the Echo-Request header
the program actually checksums (type 8, ID 1, seq 1). -/
theorem checksum_eq_rfc1071_witness :
    (∀ b ∈ ([8, 0, 0, 0, 1, 0, 1, 0] : List ℕ), b < 256) ∧
    ([8, 0, 0, 0, 1, 0, 1, 0] : List ℕ).length ≤ 1024 ∧
    checksum [8, 0, 0, 0, 1, 0, 1, 0] = rfc1071LowPad [8, 0, 0, 0, 1, 0, 1, 0] ∧
    checksum [8, 0, 0, 0, 1, 0, 1, 0] < 65536 :=
  ⟨by decide, by decide,
   (checksum_eq_rfc1071 [8, 0, 0, 0, 1, 0, 1, 0] (by decide) (by decide)).1,
   (checksum_eq_rfc1071 [8, 0, 0, 0, 1, 0, 1, 0] (by decide) (by decide)).2⟩

/-- Claim C1: in one ParisTraceroute session that probes ttl 1 and ttl 2, the
identifier field of the probes is the ttl itself (lines 272-274), so two
probes of the same session carry different identifiers - the flow signature
varies per TTL, contradicting the claimed session-constant pairing. -/
theorem paris_flow_signature_varies :
    (parisTraceroute oTwoHops 5).isDone = true ∧
    (parisTraceroute oTwoHops 5).sigsOf = [(1, 1), (1, 1), (1, 1), (2, 1), (2, 1), (2, 1)] ∧
    (parisSendData 1).id = 1 ∧ (parisSendData 2).id = 2 ∧
    ¬ (∀ p ∈ (parisTraceroute oTwoHops 5).sigsOf, ∀ q ∈ (parisTraceroute oTwoHops 5).sigsOf,
        p.1 = q.1 ∧ p.2 = q.2) := by
  decide

/-- Claim C5: a reply whose identifier (999) differs from the outstanding
request's ID (1) is still returned as the probe's result by
`receiveOnePing` - lines 124-142 parse the identifier but never compare it. -/
theorem mismatched_reply_accepted :
    unpackBBHHH ((mismatchedReply.drop 20).take 8) =
      some { type := 0, code := 0, checksum := 0, id := 999, seq := 1 } ∧
    (999 : ℕ) ≠ 1 ∧
    receiveOnePing 1 (some mismatchedReply) 0 2 = some 2 := by
  have hparse : unpackBBHHH ((mismatchedReply.drop 20).take 8) =
      some { type := 0, code := 0, checksum := 0, id := 999, seq := 1 } := by decide
  refine ⟨hparse, by decide, ?_⟩
  simp only [receiveOnePing, hparse]
  norm_num

/-- Claim C6: when the first probe's receive deadline elapses, the uncaught
`socket.timeout` aborts the whole session: exactly one probe is ever sent, no
loss is recorded (there is no loss accounting at all), and the second probe -
for which a reply was available - is never issued. -/
theorem timeout_aborts_ping_session :
    pingSession repliesFirstLost (fun _ => (0, 0, 0, 1)) 5 =
      { probesSent := 1, reports := [], crashed := true } ∧
    repliesFirstLost 1 = some validReply := by
  decide

/-- Claim C7: with the send occupying wall-clock `[0, 1]` and the reply
arriving at time 5, `doOnePing` reports `((5 - 1) - (1 - 0)) * 1000 = 3000`,
not the claimed `(receive - send) * 1000 = (5 - 0) * 1000 = 5000`: the code
subtracts the duration of the `sendto` call from the duration of the receive
wait instead of subtracting timestamps. -/
theorem ping_delay_formula_mismatch :
    (doOnePing (some validReply) 0 1 1 5).reported = some 3000 ∧
    ((5 : ℚ) - 0) * 1000 = 5000 ∧ (3000 : ℚ) ≠ 5000 := by
  have hparse : unpackBBHHH ((validReply.drop 20).take 8) =
      some { type := 0, code := 0, checksum := 0, id := 1, seq := 1 } := by decide
  refine ⟨?_, by norm_num, by norm_num⟩
  simp only [doOnePing, receiveOnePing, sendOnePing, hparse]
  norm_num

/-- Claim C9 (counterexample): on a receive timeout the socket is NOT closed -
`close()` on line 180 is skipped because the uncaught exception leaves
`doOnePing` first, aborting the iteration. -/
theorem socket_not_closed_on_timeout :
    (doOnePing none 0 0 0 0).socketClosed = false ∧
    (doOnePing none 0 0 0 0).aborted = true := by
  decide

/-- Claim C9 (amended): the socket opened by a `doOnePing` iteration is closed
exactly when the receive succeeds; when the receive raises (timeout or parse
failure) the close is skipped and the exception aborts the iteration. -/
theorem socket_closed_iff_receive_succeeds (received : Option (List ℕ)) (t0 t1 t2 t3 : ℚ) :
    (doOnePing received t0 t1 t2 t3).socketClosed = (receiveOnePing 1 received t2 t3).isSome ∧
    (doOnePing received t0 t1 t2 t3).aborted = (receiveOnePing 1 received t2 t3).isNone := by
  cases h : receiveOnePing 1 received t2 t3 <;> simp [doOnePing, h]

/-- Claim C10: the rtt min/avg/max line is emitted iff all three delays are
strictly positive; the loss line is always emitted; with the zero defaults
only the loss line appears. -/
theorem rtt_summary_iff (pl mn av mx : ℚ) :
    (OutLine.rtt mn av mx ∈ printAdditionalDetails pl mn av mx ↔ (mn > 0 ∧ av > 0 ∧ mx > 0)) ∧
    OutLine.loss pl ∈ printAdditionalDetails pl mn av mx ∧
    printAdditionalDetails pl 0 0 0 = [OutLine.loss pl] := by
  refine ⟨?_, ?_, ?_⟩
  · by_cases h : mn > 0 ∧ av > 0 ∧ mx > 0 <;> simp [printAdditionalDetails, h]
  · by_cases h : mn > 0 ∧ av > 0 ∧ mx > 0 <;> simp [printAdditionalDetails, h]
  · norm_num [printAdditionalDetails]

theorem parisFor_finished (o : ℕ → ℕ → ProbeOutcome) (ttl : ℕ) (pl : ℚ)
    (s r : ℕ) (pl' : ℚ) (lt : Option ℕ)
    (h : parisFor o ttl pl = some (s, r, pl', lt)) : s = 3 ∧ r = 3 ∧ pl' = 0 := by
  cases h0 : o ttl 0 <;> cases h1 : o ttl 1 <;> cases h2 : o ttl 2 <;>
    simp only [parisFor, probeStep, h0, h1, h2, Option.bind] at h
  all_goals try exact Option.noConfusion h
  simp only [Option.some.injEq, Prod.mk.injEq] at h
  obtain ⟨hs, hr, hpl, -⟩ := h
  refine ⟨by omega, by omega, ?_⟩
  rw [← hpl]
  norm_num

theorem parisLoop_finished (o : ℕ → ℕ → ProbeOutcome) :
    ∀ (fuel : ℕ) (st st' : ParisState), st.totalSent = st.totalRecvd →
      parisLoop o fuel st = ParisResult.finished st' →
      st'.packetLoss = 0 ∧ st'.totalSent = st'.totalRecvd ∧ 0 < st'.totalSent := by
  intro fuel
  induction fuel with
  | zero =>
    intro st st' hinv h
    simp [parisLoop] at h
  | succ n ih =>
    intro st st' hinv h
    rw [parisLoop] at h
    split at h
    · exact ParisResult.noConfusion h
    · rename_i sent3 recvd3 pl lastType heq
      obtain ⟨hs3, hr3, hpl⟩ := parisFor_finished o st.ttl st.packetLoss _ _ _ _ heq
      subst hs3; subst hr3; subst hpl
      split at h
      · simp only [ParisResult.finished.injEq] at h
        subst h
        refine ⟨rfl, by simp [parisNext, hinv], by simp [parisNext]⟩
      · exact ih _ st' (by simp [parisNext, hinv]) h

/-- Claim C2: every session that reaches the final report has a reported
packet-loss percentage equal to the whole-session formula
`(total sent - total received) / total sent * 100`, and the value lies in
`[0, 100]`. (Any timed-out probe raises an uncaught `socket.timeout`, so a
reporting session received every reply it waited for and the reported loss -
like the session-wide formula - is 0.) -/
theorem paris_packet_loss_formula (o : ℕ → ℕ → ProbeOutcome) (fuel : ℕ)
    (h : (parisTraceroute o fuel).isDone = true) :
    (parisTraceroute o fuel).lossOf =
      (((parisTraceroute o fuel).sentOf : ℚ) - ((parisTraceroute o fuel).recvdOf : ℚ)) /
        ((parisTraceroute o fuel).sentOf : ℚ) * 100 ∧
    0 ≤ (parisTraceroute o fuel).lossOf ∧ (parisTraceroute o fuel).lossOf ≤ 100 := by
  cases hres : parisTraceroute o fuel with
  | aborted => rw [hres] at h; simp [ParisResult.isDone] at h
  | running st => rw [hres] at h; simp [ParisResult.isDone] at h
  | finished st =>
    obtain ⟨hpl, htot, hpos⟩ := parisLoop_finished o fuel parisInit st rfl hres
    simp only [ParisResult.lossOf, ParisResult.sentOf, ParisResult.recvdOf]
    rw [hpl, htot]
    norm_num

/-- Witness for C2: the one-hop session in which the destination answers every
probe at ttl 1. -/
theorem paris_packet_loss_formula_witness :
    (parisTraceroute oAllZero 1).lossOf =
      (((parisTraceroute oAllZero 1).sentOf : ℚ) - ((parisTraceroute oAllZero 1).recvdOf : ℚ)) /
        ((parisTraceroute oAllZero 1).sentOf : ℚ) * 100 ∧
    0 ≤ (parisTraceroute oAllZero 1).lossOf ∧ (parisTraceroute oAllZero 1).lossOf ≤ 100 :=
  paris_packet_loss_formula oAllZero 1 (by decide)

theorem trLoop_all11 : ∀ (fuel ttl : ℕ) (hops : List ℕ),
    trLoop oAll11 fuel ttl hops = TrResult.running (hops ++ List.range' ttl fuel) := by
  intro fuel
  induction fuel with
  | zero => intro ttl hops; simp [trLoop]
  | succ n ih =>
    intro ttl hops
    rw [trLoop]
    simp only [oAll11]
    rw [if_neg (by norm_num)]
    rw [ih (ttl + 1) (hops ++ [ttl])]
    simp [List.range'_succ]

theorem parisFor_all11 (ttl : ℕ) (pl : ℚ) :
    parisFor oAll11 ttl pl = some (3, 3, ((3 : ℚ) - (3 : ℚ)) / (3 : ℚ) * 100, some 11) := by
  simp [parisFor, probeStep, oAll11]

theorem parisLoop_all11 : ∀ (fuel : ℕ) (st : ParisState),
    (parisLoop oAll11 fuel st).isStillRunning = true ∧
    (parisLoop oAll11 fuel st).hopsOf = st.hops ++ List.range' st.ttl fuel := by
  intro fuel
  induction fuel with
  | zero =>
    intro st
    simp [parisLoop, ParisResult.isStillRunning, ParisResult.hopsOf]
  | succ n ih =>
    intro st
    simp only [parisLoop, parisFor_all11]
    rw [if_neg (by simp)]
    constructor
    · exact (ih _).1
    · rw [(ih _).2]
      simp [parisNext, List.range'_succ]

/-- Claim C3: neither scanning loop has any max-ttl bound - when every probe
draws a time-exceeded (type 11) reply and none a type-0 one, both sessions
are still scanning whatever the fuel, having probed the ttl values 1..fuel;
in particular ttl 31 > 30 is probed, although the code itself prints
"30 max hops". -/
theorem no_max_ttl_bound :
    (∀ fuel : ℕ, traceroute oAll11 fuel = TrResult.running (List.range' 1 fuel)) ∧
    (∀ fuel : ℕ, (parisTraceroute oAll11 fuel).isStillRunning = true ∧
      (parisTraceroute oAll11 fuel).hopsOf = List.range' 1 fuel) ∧
    31 ∈ (parisTraceroute oAll11 40).hopsOf :=
  ⟨fun fuel => by rw [traceroute, trLoop_all11 fuel 1 []]; simp,
   fun fuel => by
     obtain ⟨h1, h2⟩ := parisLoop_all11 fuel parisInit
     exact ⟨h1, by rw [parisTraceroute, h2]; simp [parisInit]⟩,
   by decide⟩

theorem trLoop_finished (o : ℕ → ℕ → ProbeOutcome) :
    ∀ (fuel ttl : ℕ) (acc hops : List ℕ), trLoop o fuel ttl acc = TrResult.finished hops →
      ∃ n : ℕ, hops = acc ++ List.range' ttl (n + 1) ∧ o (ttl + n) 2 = ProbeOutcome.reply 0 ∧
        ∀ j < n, ∀ ty, o (ttl + j) 2 = ProbeOutcome.reply ty → ty ≠ 0 := by
  intro fuel
  induction fuel with
  | zero =>
    intro ttl acc hops h
    simp [trLoop] at h
  | succ m ih =>
    intro ttl acc hops h
    rw [trLoop] at h
    cases h0 : o ttl 0 with
    | timeout => simp [h0] at h
    | reply t0 =>
      cases h1 : o ttl 1 with
      | timeout => simp [h0, h1] at h
      | reply t1 =>
        cases h2 : o ttl 2 with
        | timeout => simp [h0, h1, h2] at h
        | reply t =>
          simp only [h0, h1, h2] at h
          by_cases ht : t = 0
          · rw [if_pos ht] at h
            simp only [TrResult.finished.injEq] at h
            subst h
            subst ht
            refine ⟨0, by simp [List.range'_succ], by simpa using h2, by omega⟩
          · rw [if_neg ht] at h
            obtain ⟨n, hh, hz, hnz⟩ := ih (ttl + 1) (acc ++ [ttl]) hops h
            refine ⟨n + 1, ?_, ?_, ?_⟩
            · rw [hh]
              simp [List.range'_succ]
            · have harith : ttl + (n + 1) = ttl + 1 + n := by omega
              rw [harith]
              exact hz
            · intro j hj ty hty
              cases j with
              | zero =>
                rw [Nat.add_zero] at hty
                rw [h2] at hty
                injection hty with he
                subst he
                exact ht
              | succ j' =>
                have harith : ttl + (j' + 1) = ttl + 1 + j' := by omega
                rw [harith] at hty
                exact hnz j' (by omega) ty hty

/-- Claim C4 (amended): in every HopDiscoverer session that reaches the final
report, the hops emitted are exactly the ttl values `1, 2, ..., k`, contiguous
and increasing, where `k` is the first ttl whose THIRD probe's reply has ICMP
type 0 - the loop tests only `recv_data` of the last probe (line 230/240), so
a type-0 reply on an earlier probe of a hop does not stop the scan. -/
theorem traceroute_hops_contiguous (o : ℕ → ℕ → ProbeOutcome) (fuel : ℕ) (hops : List ℕ)
    (h : traceroute o fuel = TrResult.finished hops) :
    1 ≤ hops.length ∧ hops = List.range' 1 hops.length ∧
    o hops.length 2 = ProbeOutcome.reply 0 ∧
    ∀ t, 1 ≤ t → t < hops.length → ∀ ty, o t 2 = ProbeOutcome.reply ty → ty ≠ 0 := by
  obtain ⟨n, hh, hz, hnz⟩ := trLoop_finished o fuel 1 [] hops h
  have hlen : hops.length = n + 1 := by
    rw [hh]
    simp
  refine ⟨by omega, by rw [hlen, hh]; simp, ?_, ?_⟩
  · rw [hlen]
    have harith : (1 : ℕ) + n = n + 1 := by omega
    rw [← harith]
    exact hz
  · intro t h1t htlen ty hty
    have harith : t = 1 + (t - 1) := by omega
    rw [harith] at hty
    exact hnz (t - 1) (by omega) ty hty

/-- Witness for C4: the three-hop session where the destination answers at
ttl 3. -/
theorem traceroute_hops_contiguous_witness :
    1 ≤ ([1, 2, 3] : List ℕ).length ∧
    ([1, 2, 3] : List ℕ) = List.range' 1 ([1, 2, 3] : List ℕ).length ∧
    oThreeHops ([1, 2, 3] : List ℕ).length 2 = ProbeOutcome.reply 0 :=
  ⟨(traceroute_hops_contiguous oThreeHops 5 [1, 2, 3] (by decide)).1,
   (traceroute_hops_contiguous oThreeHops 5 [1, 2, 3] (by decide)).2.1,
   (traceroute_hops_contiguous oThreeHops 5 [1, 2, 3] (by decide)).2.2.1⟩

/-- Claim C4 (counterexample): at ttl 1 the session observes a type-0
(Echo-Reply) on its first probe, yet it does not stop there - the third
probe's reply has type 11, so hop 2 is still emitted: the session does not
stop at the first TTL whose reply has type 0. -/
theorem traceroute_passes_first_type0 :
    traceroute oEarlyZero 5 = TrResult.finished [1, 2] ∧
    oEarlyZero 1 0 = ProbeOutcome.reply 0 ∧ ([1, 2] : List ℕ) ≠ [1] := by
  decide
